import Mathlib

/-!
Verification of the clean-git branch-cleanup tool's core logic.

Shallow embedding notes:
* Go `time.Time` is modelled as `Int` (a point on a linear time line); the Go
  zero value `time.Time{}` is modelled as `0`.  Go `time.Duration` is likewise
  an `Int` (nanoseconds); `nsPerHour` converts hours to that unit.
* Go `(value, error)` returns where the caller branches on the error are
  modelled as `Except String`; the one call whose error is ignored
  (`hasUnpushedCommits` in `createBranchFromName`) is modelled as a pair
  `Bool × Option String` so that the ignored error does not change the value.
* The standard-library calls `time.Parse` and `regexp.MatchString` are
  modelled as explicit function parameters (`parseTime : String → Option Int`,
  `matchString : String → String → Option Bool` where `none` means the
  pattern failed to compile), since their internals are outside the
  repository; `literalMatchString` instantiates the latter for
  metacharacter-free patterns, for which RE2 matching is unanchored substring
  search.
-/

/-- `git.Branch` (the record produced by the branch resolver). -/
structure Branch where
  Name : String
  IsCurrent : Bool
  IsRemote : Bool
  IsMerged : Bool
  LastCommitAt : Int
  LastCommitSHA : String
  AuthorUserName : String
  AuthorEmail : String
  HasUnpushedCommits : Bool
  Remote : String
deriving Repr, DecidableEq

/-- The `gitClient` capability interface: each field is one primitive
version-control query, modelled as a pure function of its arguments.
`hasUnpushedCommits` returns the Go pair `(bool, error)` directly because the
service ignores its error component. -/
structure GitClient where
  getCurrentBranchName : Except String String
  getMergedBranchNames : String → Except String (List String)
  getAllBranchNames : Except String (List String)
  getBranchCommitInfo : String → Except String String
  deleteLocalBranch : String → Except String Unit
  deleteRemoteBranch : String → String → Except String Unit
  hasUnpushedCommits : String → Bool × Option String

/-- `DefaultBranchService` (the `TestableBranchService` in the source is the
same logic over the same client contract, so one embedding covers both). -/
structure DefaultBranchService where
  Client : GitClient
  RemoteName : String

/-- The effective remote identifier computed at the top of
`createBranchFromName`: the configured `RemoteName` when non-empty, else the
literal `"origin"`. -/
def effectiveRemoteName (s : DefaultBranchService) : String :=
  if s.RemoteName ≠ "" then s.RemoteName else "origin"

/-- Go `strings.HasPrefix(s, p)`, computed on the underlying character
lists. -/
def hasPrefixStr (s p : String) : Bool :=
  p.data.isPrefixOf s.data

/-- Go `strings.Split(s, "|")` (the separator in the commit-info protocol is
the single character `|`), computed on the underlying character lists. -/
def splitPipe (s : String) : List String :=
  (s.data.splitOn '|').map String.mk

/-- Go `strings.TrimSpace`, computed on the underlying character lists. -/
def trimSpace (s : String) : String :=
  String.mk (((s.data.dropWhile Char.isWhitespace).reverse.dropWhile
    Char.isWhitespace).reverse)

/-- `isRemote := strings.HasPrefix(branchName, remoteName+"/")`. -/
def isRemoteName (s : DefaultBranchService) (branchName : String) : Bool :=
  hasPrefixStr branchName (effectiveRemoteName s ++ "/")

/-- `actualName`: the input with the `"<remote>/"` prefix stripped when the
prefix test succeeded (`strings.TrimPrefix`), the bare input otherwise. -/
def actualBranchName (s : DefaultBranchService) (branchName : String) : String :=
  if isRemoteName s branchName then
    branchName.drop (effectiveRemoteName s ++ "/").length
  else branchName

/-- `branchNameForCommitInfo`: the key passed to `getBranchCommitInfo` — the
original fully-qualified input for remote branches, the actual name for local
ones. -/
def commitInfoLookupKey (s : DefaultBranchService) (branchName : String) : String :=
  if isRemoteName s branchName then branchName else actualBranchName s branchName

/-- The `remote` field of the built record: the effective remote identifier
for remote branches, empty for local ones. -/
def remoteFieldOf (s : DefaultBranchService) (branchName : String) : String :=
  if isRemoteName s branchName then effectiveRemoteName s else ""

/-- `commitDate`: `time.Parse` of the first pipe-field, degrading to the zero
time (modelled as `0`) when the parse fails. -/
def parsedCommitDate (parseTime : String → Option Int) (field : String) : Int :=
  match parseTime field with
  | some t => t
  | none => 0

/-- The `Branch` literal built at the end of `createBranchFromName`, given the
raw pipe-delimited commit info (already known to have 4 fields) and the
current branch name.  `List.getD` stands for the index accesses that the
4-field check makes valid. -/
def buildBranch (s : DefaultBranchService) (parseTime : String → Option Int)
    (branchName commitInfo currentBranchName : String) : Branch :=
  { Name := actualBranchName s branchName
    IsCurrent := actualBranchName s branchName == currentBranchName
      && !(isRemoteName s branchName)
    IsRemote := isRemoteName s branchName
    IsMerged := false
    LastCommitAt := parsedCommitDate parseTime ((splitPipe commitInfo).getD 0 "")
    LastCommitSHA := trimSpace ((splitPipe commitInfo).getD 3 "")
    AuthorUserName := trimSpace ((splitPipe commitInfo).getD 1 "")
    AuthorEmail := trimSpace ((splitPipe commitInfo).getD 2 "")
    HasUnpushedCommits :=
      if isRemoteName s branchName then false
      else (s.Client.hasUnpushedCommits (actualBranchName s branchName)).1
    Remote := remoteFieldOf s branchName }

/-- `DefaultBranchService.createBranchFromName`: resolves a raw branch-name
string into a fully populated `Branch` record. -/
def createBranchFromName (s : DefaultBranchService) (parseTime : String → Option Int)
    (branchName : String) : Except String Branch :=
  match s.Client.getBranchCommitInfo (commitInfoLookupKey s branchName) with
  | .error e =>
    .error ("failed to get commit info for branch "
      ++ commitInfoLookupKey s branchName ++ ": " ++ e)
  | .ok commitInfo =>
    if (splitPipe commitInfo).length = 4 then
      match s.Client.getCurrentBranchName with
      | .error e => .error ("failed to get current branch: " ++ e)
      | .ok currentBranchName =>
        .ok (buildBranch s parseTime branchName commitInfo currentBranchName)
    else
      .error ("unexpected commit info format for branch "
        ++ actualBranchName s branchName)

/-- `DefaultBranchService.GetBranchByName`: direct single-branch resolution. -/
def GetBranchByName (s : DefaultBranchService) (parseTime : String → Option Int)
    (branchName : String) : Except String Branch :=
  createBranchFromName s parseTime branchName

/-- The per-name loop of `GetMergedBranches`: resolve each name, skip the
ones whose resolution fails, tag the rest `IsMerged := true`. -/
def mergedLoop (s : DefaultBranchService) (parseTime : String → Option Int) :
    List String → List Branch
  | [] => []
  | name :: rest =>
    match GetBranchByName s parseTime name with
    | .error _ => mergedLoop s parseTime rest
    | .ok branch => { branch with IsMerged := true } :: mergedLoop s parseTime rest

/-- `DefaultBranchService.GetMergedBranches`. -/
def GetMergedBranches (s : DefaultBranchService) (parseTime : String → Option Int)
    (baseBranch : String) : Except String (List Branch) :=
  match s.Client.getMergedBranchNames baseBranch with
  | .error e => .error e
  | .ok branchNames => .ok (mergedLoop s parseTime branchNames)

/-- The remote identifier `DeleteBranch` passes to the client's remote
delete: the branch's own `Remote` when non-empty, else the service's
configured `RemoteName` when non-empty, else the fallback `"origin"`. -/
def resolvedDeleteRemote (s : DefaultBranchService) (branch : Branch) : String :=
  if branch.Remote = "" then
    if s.RemoteName ≠ "" then s.RemoteName else "origin"
  else branch.Remote

/-- `DefaultBranchService.DeleteBranch` (the source mutates `branch.Remote`
in place before delegating; the pure model computes the same delegated
call). -/
def DeleteBranch (s : DefaultBranchService) (branch : Branch) : Except String Unit :=
  if branch.IsRemote then
    s.Client.deleteRemoteBranch (resolvedDeleteRemote s branch) branch.Name
  else
    s.Client.deleteLocalBranch branch.Name

/-- `DefaultBranchService.IsProtectedBranch`: the loop over patterns, skipping
patterns whose compilation fails (`matchString _ _ = none`) and returning
`true` at the first compiled pattern that matches. -/
def IsProtectedBranch (matchString : String → String → Option Bool)
    (branch : Branch) : List String → Bool
  | [] => false
  | p :: rest =>
    match matchString p branch.Name with
    | none => IsProtectedBranch matchString branch rest
    | some matched =>
      if matched then true else IsProtectedBranch matchString branch rest

/-- Models `regexp.MatchString` for metacharacter-free patterns: RE2
matching is unanchored, so such a pattern matches iff it occurs as a
substring of the input, and literal patterns always compile. -/
def literalMatchString (pat s : String) : Option Bool :=
  some (decide (pat.data <:+: s.data))

/-- Nanoseconds per hour (`time.Hour` as an `Int` duration). -/
def nsPerHour : Int := 3600000000000

/-- `config.Config`. -/
structure Config where
  BaseBranches : List String
  MaxAge : Int
  ProtectedRegex : List String
  IncludeRegex : List String
  RemoteName : String
deriving Repr, DecidableEq

/-- `config.DefaultConfig()`. -/
def DefaultConfig : Config :=
  { BaseBranches := ["main", "master", "develop"]
    MaxAge := 720 * nsPerHour * 24
    ProtectedRegex := ["release/*", "hotfix/*"]
    IncludeRegex := [".*"]
    RemoteName := "origin" }

/-- The YAML document `yaml.Marshal` produces for a `Config`: every field
carries `omitempty`, so a field holding its zero value is absent (`none`)
from the document. -/
structure ConfigDoc where
  baseBranches : Option (List String)
  maxAge : Option Int
  protectedRegex : Option (List String)
  includeRegex : Option (List String)
  remoteName : Option String
deriving Repr, DecidableEq

/-- `yaml.Marshal` on a `Config` (structured view: `omitempty` drops
zero-valued fields). -/
def yamlMarshalConfig (c : Config) : ConfigDoc :=
  { baseBranches := if c.BaseBranches = [] then none else some c.BaseBranches
    maxAge := if c.MaxAge = 0 then none else some c.MaxAge
    protectedRegex := if c.ProtectedRegex = [] then none else some c.ProtectedRegex
    includeRegex := if c.IncludeRegex = [] then none else some c.IncludeRegex
    remoteName := if c.RemoteName = "" then none else some c.RemoteName }

/-- `yaml.Unmarshal` into a fresh `Config`: absent fields keep the zero
value. -/
def yamlUnmarshalConfig (d : ConfigDoc) : Config :=
  { BaseBranches := d.baseBranches.getD []
    MaxAge := d.maxAge.getD 0
    ProtectedRegex := d.protectedRegex.getD []
    IncludeRegex := d.includeRegex.getD []
    RemoteName := d.remoteName.getD "" }

/-- `config.repoConfigService` (the `configPath`/`repoRoot` strings play no
role once the file store is modelled as the single value at that path). -/
structure RepoConfigService where
  config : Option Config
  onboarding : Bool

/-- `repoConfigService.Config()`. -/
def serviceConfig (s : RepoConfigService) : Config :=
  s.config.getD DefaultConfig

/-- `repoConfigService.Save()`: defaults a nil config, then writes the
marshalled document to the config path.  The file store is the
`Option ConfigDoc` component (`some` = the file exists with that content);
directory creation and write failures are outside the model. -/
def saveConfig (s : RepoConfigService) : RepoConfigService × Option ConfigDoc :=
  ({ s with config := some (s.config.getD DefaultConfig) },
   some (yamlMarshalConfig (s.config.getD DefaultConfig)))

/-- `repoConfigService.load()` for a service with the given onboarding flag,
reading the given file store: onboarding and a missing file both yield the
default config, otherwise the file's document is unmarshalled.  (Read errors
other than not-exist and YAML syntax errors are outside the structured file
model.) -/
def loadConfig (onboarding : Bool) (file : Option ConfigDoc) : Config :=
  if onboarding then DefaultConfig
  else
    match file with
    | none => DefaultConfig
    | some doc => yamlUnmarshalConfig doc

/-- `config.NewService`: a freshly constructed (non-onboarding) service whose
`load()` has run against the given file store. -/
def newService (file : Option ConfigDoc) : RepoConfigService :=
  { config := some (loadConfig false file), onboarding := false }

/-- `time.Since(branch.LastCommitAt)` at the moment `now`. -/
def branchAge (now : Int) (b : Branch) : Int := now - b.LastCommitAt

/-- The age step of `handleCleanCommand`'s policy filter: the candidate is
skipped when `age < cfg.MaxAge`. -/
def cleanAgeSkip (now maxAge : Int) (b : Branch) : Bool :=
  decide (branchAge now b < maxAge)

/-- `defaultGitClient.deleteLocalBranch`, parameterized by the `run`
function that executes a git command line: try `git branch -d`; if that
fails, try force delete `git branch -D`; report an error (wrapping the
original one) only when both fail. -/
def defaultDeleteLocalBranch (run : List String → Except String String)
    (branchName : String) : Except String Unit :=
  match run ["branch", "-d", branchName] with
  | .ok _ => .ok ()
  | .error e =>
    match run ["branch", "-D", branchName] with
    | .ok _ => .ok ()
    | .error _ =>
      .error ("failed to delete local branch " ++ branchName ++ ": " ++ e)

/-! Concrete fixtures used to instantiate the theorems below. -/

/-- A concrete in-memory client: one local branch `feature-a`, one remote
branch `origin/feature-b`, and one branch `badline` whose commit-info record
is malformed (1 field instead of 4). -/
def witnessClient : GitClient :=
  { getCurrentBranchName := .ok "main"
    getMergedBranchNames := fun _ => .ok ["feature-a", "origin/feature-b", "badline"]
    getAllBranchNames := .ok []
    getBranchCommitInfo := fun k =>
      if k = "badline" then .ok "nope"
      else .ok "2024-05-01 10:00:00 +0000|alice|alice@x.io|abc1234"
    deleteLocalBranch := fun _ => .ok ()
    deleteRemoteBranch := fun _ _ => .ok ()
    hasUnpushedCommits := fun _ => (false, none) }

/-- A service over `witnessClient` with no configured remote name. -/
def witnessService : DefaultBranchService :=
  { Client := witnessClient, RemoteName := "" }

/-- A concrete time parser that succeeds exactly on the fixture timestamp. -/
def witnessParseTime : String → Option Int := fun t =>
  if t = "2024-05-01 10:00:00 +0000" then some 1714557600 else none

/-- A time parser that always fails. -/
def failParseTime : String → Option Int := fun _ => none

/-- The record `witnessService` resolves for `origin/feature-b`. -/
def witnessRemoteBranch : Branch :=
  { Name := "feature-b"
    IsCurrent := false
    IsRemote := true
    IsMerged := false
    LastCommitAt := 1714557600
    LastCommitSHA := "abc1234"
    AuthorUserName := "alice"
    AuthorEmail := "alice@x.io"
    HasUnpushedCommits := false
    Remote := "origin" }

/-- A merged local branch last committed 1 day ago (relative to `now = 0`). -/
def recentBranch : Branch :=
  { Name := "recent", IsCurrent := false, IsRemote := false, IsMerged := true
    LastCommitAt := -(24 * nsPerHour), LastCommitSHA := "", AuthorUserName := ""
    AuthorEmail := "", HasUnpushedCommits := false, Remote := "" }

/-- A merged local branch last committed 3 days ago. -/
def oldBranch : Branch :=
  { Name := "old", IsCurrent := false, IsRemote := false, IsMerged := true
    LastCommitAt := -(72 * nsPerHour), LastCommitSHA := "", AuthorUserName := ""
    AuthorEmail := "", HasUnpushedCommits := false, Remote := "" }

/-- A merged local branch last committed 7 days ago. -/
def veryOldBranch : Branch :=
  { Name := "very-old", IsCurrent := false, IsRemote := false, IsMerged := true
    LastCommitAt := -(168 * nsPerHour), LastCommitSHA := "", AuthorUserName := ""
    AuthorEmail := "", HasUnpushedCommits := false, Remote := "" }

/-- A local branch named `maintenance` (its name contains the pattern
`main` as a proper substring). -/
def maintenanceBranch : Branch :=
  { Name := "maintenance", IsCurrent := false, IsRemote := false, IsMerged := true
    LastCommitAt := 0, LastCommitSHA := "", AuthorUserName := ""
    AuthorEmail := "", HasUnpushedCommits := false, Remote := "" }

/-- A `run` function on which `git branch -d feature-x` fails with a
"not fully merged" message while the force delete `git branch -D` succeeds. -/
def runCexC8 : List String → Except String String := fun args =>
  if args = ["branch", "-d", "feature-x"] then
    .error "branch feature-x is not fully merged"
  else if args = ["branch", "-D", "feature-x"] then .ok ""
  else .error "unexpected git invocation"

/-- A `run` function on which both the regular and the force delete fail. -/
def runFailBothC8 : List String → Except String String :=
  fun _ => .error "permission denied"

/-- A remote branch record with an empty `Remote` field. -/
def emptyRemoteBranch : Branch :=
  { Name := "feature-b", IsCurrent := false, IsRemote := true, IsMerged := true
    LastCommitAt := 0, LastCommitSHA := "", AuthorUserName := ""
    AuthorEmail := "", HasUnpushedCommits := false, Remote := "" }

/-- A local branch record. -/
def localBranch : Branch :=
  { Name := "feature-a", IsCurrent := false, IsRemote := false, IsMerged := true
    LastCommitAt := 0, LastCommitSHA := "", AuthorUserName := ""
    AuthorEmail := "", HasUnpushedCommits := false, Remote := "" }

/-! Helper lemmas (shared; not tied to a single claim). -/

theorem effectiveRemoteName_ne (s : DefaultBranchService) :
    effectiveRemoteName s ≠ "" := by
  unfold effectiveRemoteName
  split <;> simp_all

theorem commitInfoLookupKey_eq (s : DefaultBranchService) (n : String) :
    commitInfoLookupKey s n = n := by
  unfold commitInfoLookupKey actualBranchName
  split <;> simp_all

theorem createBranchFromName_ok {s : DefaultBranchService}
    {pt : String → Option Int} {name : String} {b : Branch}
    (h : createBranchFromName s pt name = Except.ok b) :
    ∃ commitInfo currentBranchName,
      s.Client.getBranchCommitInfo (commitInfoLookupKey s name)
        = Except.ok commitInfo
      ∧ (splitPipe commitInfo).length = 4
      ∧ s.Client.getCurrentBranchName = Except.ok currentBranchName
      ∧ b = buildBranch s pt name commitInfo currentBranchName := by
  unfold createBranchFromName at h
  split at h
  · simp at h
  next info hci =>
    split at h
    next h4 =>
      split at h
      · simp at h
      next cur hcb =>
        exact ⟨info, cur, hci, h4, hcb, (Except.ok.inj h).symm⟩
    next h4 => simp at h

/-- C5: `IsProtectedBranch` returns `true` iff at least one pattern in the
list both compiles as a regular expression and matches the branch's name
(`matchString p name = some true`); patterns that fail to compile
(`matchString p name = none`) are skipped as non-matching and never cause an
error, and an empty or all-invalid pattern list yields `false`. -/
theorem c5_protected_iff (ms : String → String → Option Bool) (b : Branch)
    (pats : List String) :
    IsProtectedBranch ms b pats = true ↔ ∃ p ∈ pats, ms p b.Name = some true := by
  induction pats with
  | nil => simp [IsProtectedBranch]
  | cons p rest ih =>
    simp only [IsProtectedBranch]
    cases hm : ms p b.Name with
    | none => simp [hm, ih]
    | some matched =>
      cases matched with
      | true => simp [hm]
      | false => simp [hm, ih]

/-- C7: the clean-command policy filter's age step skips a candidate exactly
when `now - LastCommitAt < maxAge`; on the 1-day / 3-day / 7-day fixture set
with `maxAge = 48h`, exactly the 3-day and 7-day branches pass the age
step. -/
theorem c7_age_filter :
    (∀ now maxAge b, cleanAgeSkip now maxAge b = true ↔ now - b.LastCommitAt < maxAge)
    ∧ ([recentBranch, oldBranch, veryOldBranch].filter
        fun b => !cleanAgeSkip 0 (48 * nsPerHour) b) = [oldBranch, veryOldBranch] := by
  constructor
  · intro now maxAge b
    simp [cleanAgeSkip, branchAge]
  · decide

/-- C9: saving any `Config` through the config service and then loading it in
a freshly constructed service instance yields a `Config` equal field for
field to the original (base-branch list, max-age duration, protected and
include pattern lists, remote name). -/
theorem c9_config_roundtrip (c : Config) :
    (serviceConfig (newService
      (saveConfig { config := some c, onboarding := false }).2)).BaseBranches
        = c.BaseBranches
    ∧ (serviceConfig (newService
      (saveConfig { config := some c, onboarding := false }).2)).MaxAge = c.MaxAge
    ∧ (serviceConfig (newService
      (saveConfig { config := some c, onboarding := false }).2)).ProtectedRegex
        = c.ProtectedRegex
    ∧ (serviceConfig (newService
      (saveConfig { config := some c, onboarding := false }).2)).IncludeRegex
        = c.IncludeRegex
    ∧ (serviceConfig (newService
      (saveConfig { config := some c, onboarding := false }).2)).RemoteName
        = c.RemoteName := by
  have hy : yamlUnmarshalConfig (yamlMarshalConfig c) = c := by
    cases c with
    | mk bb ma pr ir rn =>
      unfold yamlMarshalConfig yamlUnmarshalConfig
      simp only [Config.mk.injEq]
      refine ⟨?_, ?_, ?_, ?_, ?_⟩ <;> dsimp only <;> split <;> simp_all
  simp [newService, saveConfig, loadConfig, serviceConfig, hy]

/-- C10: protection matching is unanchored — a pattern protects a branch
whenever the matcher reports a match on the branch's name, in particular a
literal pattern that occurs merely as a substring: branch `maintenance` with
pattern `main` is protected even though the name does not equal the
pattern. -/
theorem c10_unanchored_match :
    (∀ (ms : String → String → Option Bool) (b : Branch) (pats : List String)
      (p : String), p ∈ pats → ms p b.Name = some true →
      IsProtectedBranch ms b pats = true)
    ∧ literalMatchString "main" maintenanceBranch.Name = some true
    ∧ IsProtectedBranch literalMatchString maintenanceBranch ["main"] = true
    ∧ maintenanceBranch.Name ≠ "main" := by
  refine ⟨?_, by decide, by decide, by decide⟩
  intro ms b pats p hmem hmatch
  induction pats with
  | nil => cases hmem
  | cons q rest ih =>
    rcases List.mem_cons.mp hmem with hq | hq
    · subst hq
      simp [IsProtectedBranch, hmatch]
    · simp only [IsProtectedBranch]
      cases hqm : ms q b.Name with
      | none => exact ih hq
      | some m =>
        cases m with
        | true => rfl
        | false => simpa using ih hq

/-- Witness for C10 at a concrete input: the generic conjunct applied to the
literal matcher, the `maintenance` branch, and a pattern list whose second
entry occurs as a substring of the name. -/
theorem c10_unanchored_match_witness :
    IsProtectedBranch literalMatchString maintenanceBranch ["zzz", "tena"] = true :=
  c10_unanchored_match.1 literalMatchString maintenanceBranch ["zzz", "tena"] "tena"
    (by decide) (by decide)

/-- C1: the resolver computes the effective remote identifier (configured
`RemoteName` when non-empty, else the literal `origin`); an input carrying
the `"<remote>/"` prefix resolves to a remote branch whose `Name` is the
input with that prefix stripped and whose commit-metadata lookup succeeded at
the original fully-qualified input string; an input without the prefix
resolves to a local branch whose `Name` is the bare input, with the same
string as the lookup key. -/
theorem c1_resolver_remote_split (s : DefaultBranchService)
    (pt : String → Option Int) (branchName : String) (b : Branch)
    (h : createBranchFromName s pt branchName = Except.ok b) :
    (s.RemoteName ≠ "" → effectiveRemoteName s = s.RemoteName)
    ∧ (s.RemoteName = "" → effectiveRemoteName s = "origin")
    ∧ (hasPrefixStr branchName (effectiveRemoteName s ++ "/") = true →
        b.IsRemote = true
        ∧ b.Name = branchName.drop (effectiveRemoteName s ++ "/").length
        ∧ ∃ info, s.Client.getBranchCommitInfo branchName = Except.ok info)
    ∧ (hasPrefixStr branchName (effectiveRemoteName s ++ "/") = false →
        b.IsRemote = false
        ∧ b.Name = branchName
        ∧ ∃ info, s.Client.getBranchCommitInfo branchName = Except.ok info) := by
  obtain ⟨info, cur, hci, h4, hcb, hb⟩ := createBranchFromName_ok h
  rw [commitInfoLookupKey_eq] at hci
  subst hb
  refine ⟨fun hne => by simp [effectiveRemoteName, hne],
    fun he => by simp [effectiveRemoteName, he], ?_, ?_⟩
  · intro hp
    exact ⟨by simp [buildBranch, isRemoteName, hp],
      by simp [buildBranch, actualBranchName, isRemoteName, hp], info, hci⟩
  · intro hp
    exact ⟨by simp [buildBranch, isRemoteName, hp],
      by simp [buildBranch, actualBranchName, isRemoteName, hp], info, hci⟩

/-- Witness for C1 at concrete inputs: the fixture service resolves
`origin/feature-b` as a remote branch. -/
theorem c1_resolver_remote_split_witness :
    createBranchFromName witnessService witnessParseTime "origin/feature-b"
      = Except.ok witnessRemoteBranch
    ∧ (witnessRemoteBranch.IsRemote = true
      ∧ witnessRemoteBranch.Name
          = "origin/feature-b".drop (effectiveRemoteName witnessService ++ "/").length
      ∧ ∃ info, witnessService.Client.getBranchCommitInfo "origin/feature-b"
          = Except.ok info) :=
  ⟨rfl, (c1_resolver_remote_split witnessService witnessParseTime
    "origin/feature-b" witnessRemoteBranch rfl).2.2.1 (by decide)⟩

/-- C6: every `Branch` the resolver produces satisfies the local/remote
invariant: `IsCurrent` implies not `IsRemote`; a local branch has an empty
`Remote`; a remote branch has the non-empty resolved remote identifier in
`Remote` and `HasUnpushedCommits = false` unconditionally. -/
theorem c6_branch_invariants (s : DefaultBranchService)
    (pt : String → Option Int) (name : String) (b : Branch)
    (h : createBranchFromName s pt name = Except.ok b) :
    (b.IsCurrent = true → b.IsRemote = false)
    ∧ (b.IsRemote = false → b.Remote = "")
    ∧ (b.IsRemote = true →
        b.Remote = effectiveRemoteName s
        ∧ b.Remote ≠ ""
        ∧ b.HasUnpushedCommits = false) := by
  obtain ⟨info, cur, hci, h4, hcb, hb⟩ := createBranchFromName_ok h
  subst hb
  cases hr : isRemoteName s name <;>
    simp [buildBranch, remoteFieldOf, hr, effectiveRemoteName_ne]

/-- Witness for C6: the invariant instantiated at the fixture's resolved
remote branch. -/
theorem c6_branch_invariants_witness :
    createBranchFromName witnessService witnessParseTime "origin/feature-b"
      = Except.ok witnessRemoteBranch
    ∧ (witnessRemoteBranch.IsRemote = true →
        witnessRemoteBranch.Remote = effectiveRemoteName witnessService
        ∧ witnessRemoteBranch.Remote ≠ ""
        ∧ witnessRemoteBranch.HasUnpushedCommits = false) :=
  ⟨rfl, (c6_branch_invariants witnessService witnessParseTime
    "origin/feature-b" witnessRemoteBranch rfl).2.2⟩

/-- C2: a commit-info record that does not split into exactly 4 pipe-fields
makes resolution of that branch fail (no `Branch` record is produced), while
a 4-field record whose timestamp field fails to parse still resolves
successfully, with the zero-value `LastCommitAt` (modelled as `0`). -/
theorem c2_commit_info_parsing (s : DefaultBranchService)
    (pt : String → Option Int) (name info cur : String) :
    (s.Client.getBranchCommitInfo (commitInfoLookupKey s name) = Except.ok info →
      (splitPipe info).length ≠ 4 →
      createBranchFromName s pt name
        = Except.error ("unexpected commit info format for branch "
            ++ actualBranchName s name))
    ∧ (s.Client.getBranchCommitInfo (commitInfoLookupKey s name) = Except.ok info →
      (splitPipe info).length = 4 →
      pt ((splitPipe info).getD 0 "") = none →
      s.Client.getCurrentBranchName = Except.ok cur →
      createBranchFromName s pt name = Except.ok (buildBranch s pt name info cur)
      ∧ (buildBranch s pt name info cur).LastCommitAt = 0) := by
  constructor
  · intro hci h4
    unfold createBranchFromName
    rw [hci]
    simp [h4]
  · intro hci h4 hp hcb
    refine ⟨?_, by simp only [buildBranch, parsedCommitDate, hp]⟩
    unfold createBranchFromName
    rw [hci]
    simp only [h4, if_pos]
    rw [hcb]

/-- Witness for C2 at concrete inputs: the fixture branch `badline` carries a
1-field record and fails to resolve, while `feature-a` under an
always-failing time parser resolves with `LastCommitAt = 0`. -/
theorem c2_commit_info_parsing_witness :
    createBranchFromName witnessService witnessParseTime "badline"
      = Except.error ("unexpected commit info format for branch "
          ++ actualBranchName witnessService "badline")
    ∧ (createBranchFromName witnessService failParseTime "feature-a"
        = Except.ok (buildBranch witnessService failParseTime "feature-a"
            "2024-05-01 10:00:00 +0000|alice|alice@x.io|abc1234" "main")
      ∧ (buildBranch witnessService failParseTime "feature-a"
          "2024-05-01 10:00:00 +0000|alice|alice@x.io|abc1234" "main").LastCommitAt
          = 0) :=
  ⟨(c2_commit_info_parsing witnessService witnessParseTime "badline" "nope"
      "main").1 rfl (by decide),
   (c2_commit_info_parsing witnessService failParseTime "feature-a"
      "2024-05-01 10:00:00 +0000|alice|alice@x.io|abc1234" "main").2 rfl
      (by decide) rfl rfl⟩

/-- The per-name loop of `GetMergedBranches` is the `filterMap` that drops
exactly the names whose resolution fails and tags the rest merged. -/
theorem mergedLoop_eq_filterMap (s : DefaultBranchService)
    (pt : String → Option Int) (names : List String) :
    mergedLoop s pt names
      = names.filterMap fun n =>
          (GetBranchByName s pt n).toOption.map fun b => { b with IsMerged := true } := by
  induction names with
  | nil => rfl
  | cons n rest ih =>
    simp only [mergedLoop, List.filterMap_cons]
    cases h : GetBranchByName s pt n with
    | error e => simp [h, Except.toOption, ih]
    | ok b => simp [h, Except.toOption, ih]

/-- Every record the merged-branch loop returns is tagged merged. -/
theorem mergedLoop_isMerged (s : DefaultBranchService)
    (pt : String → Option Int) (names : List String) :
    ∀ b ∈ mergedLoop s pt names, b.IsMerged = true := by
  induction names with
  | nil => intro b hb; cases hb
  | cons n rest ih =>
    intro b hb
    simp only [mergedLoop] at hb
    cases h : GetBranchByName s pt n with
    | error e =>
      rw [h] at hb
      exact ih b hb
    | ok br =>
      rw [h] at hb
      rcases List.mem_cons.mp hb with hb1 | hb2
      · subst hb1; rfl
      · exact ih b hb2

/-- C3: when the client's merged-branch query succeeds, `GetMergedBranches`
succeeds (one bad branch never fails the whole call), its result is exactly
the per-name resolution with failing names skipped, and every returned
`Branch` has `IsMerged = true`. -/
theorem c3_merged_branches (s : DefaultBranchService)
    (pt : String → Option Int) (base : String) (names : List String)
    (h : s.Client.getMergedBranchNames base = Except.ok names) :
    GetMergedBranches s pt base
      = Except.ok (names.filterMap fun n =>
          (GetBranchByName s pt n).toOption.map fun b => { b with IsMerged := true })
    ∧ ∀ bs, GetMergedBranches s pt base = Except.ok bs →
        ∀ b ∈ bs, b.IsMerged = true := by
  constructor
  · unfold GetMergedBranches
    rw [h]
    exact congrArg Except.ok (mergedLoop_eq_filterMap s pt names)
  · intro bs hbs b hb
    unfold GetMergedBranches at hbs
    rw [h] at hbs
    have hbs2 : Except.ok (mergedLoop s pt names) = Except.ok bs := hbs
    exact mergedLoop_isMerged s pt names b ((Except.ok.inj hbs2) ▸ hb)

/-- Witness for C3: the fixture client lists three merged names, of which
`badline` fails to resolve and is skipped. -/
theorem c3_merged_branches_witness :
    GetMergedBranches witnessService witnessParseTime "main"
      = Except.ok (["feature-a", "origin/feature-b", "badline"].filterMap fun n =>
          (GetBranchByName witnessService witnessParseTime n).toOption.map
            fun b => { b with IsMerged := true }) :=
  (c3_merged_branches witnessService witnessParseTime "main"
    ["feature-a", "origin/feature-b", "badline"] rfl).1

/-- C4: deleting a remote branch delegates to the client's remote delete
with the branch's own `Remote` when non-empty, else the configured
`RemoteName` when non-empty, else the hard-coded `origin` — the resolved
remote is never empty, so an empty `Remote` field alone never produces an
error; deleting a local branch delegates to the client's local delete with
the branch's name; in both cases the call returns exactly what the client
reports. -/
theorem c4_delete_branch (s : DefaultBranchService) (branch : Branch) :
    (branch.IsRemote = true →
      DeleteBranch s branch
        = s.Client.deleteRemoteBranch (resolvedDeleteRemote s branch) branch.Name
      ∧ (branch.Remote ≠ "" → resolvedDeleteRemote s branch = branch.Remote)
      ∧ (branch.Remote = "" → s.RemoteName ≠ "" →
          resolvedDeleteRemote s branch = s.RemoteName)
      ∧ (branch.Remote = "" → s.RemoteName = "" →
          resolvedDeleteRemote s branch = "origin")
      ∧ resolvedDeleteRemote s branch ≠ "")
    ∧ (branch.IsRemote = false →
      DeleteBranch s branch = s.Client.deleteLocalBranch branch.Name) := by
  constructor
  · intro hr
    refine ⟨by simp [DeleteBranch, hr], ?_, ?_, ?_, ?_⟩
    · intro hrem
      simp [resolvedDeleteRemote, hrem]
    · intro hrem hname
      simp [resolvedDeleteRemote, hrem, hname]
    · intro hrem hname
      simp [resolvedDeleteRemote, hrem, hname]
    · unfold resolvedDeleteRemote
      split
      · split <;> simp_all
      · simp_all
  · intro hr
    simp [DeleteBranch, hr]

/-- Witness for C4: a remote branch with an empty `Remote` field under an
unconfigured service resolves the delete target to `origin`, and a local
branch delegates to the local delete. -/
theorem c4_delete_branch_witness :
    (DeleteBranch witnessService emptyRemoteBranch
        = witnessService.Client.deleteRemoteBranch
            (resolvedDeleteRemote witnessService emptyRemoteBranch)
            emptyRemoteBranch.Name
      ∧ resolvedDeleteRemote witnessService emptyRemoteBranch = "origin")
    ∧ DeleteBranch witnessService localBranch
        = witnessService.Client.deleteLocalBranch localBranch.Name :=
  ⟨⟨((c4_delete_branch witnessService emptyRemoteBranch).1 rfl).1,
    ((c4_delete_branch witnessService emptyRemoteBranch).1 rfl).2.2.2.1 rfl rfl⟩,
   (c4_delete_branch witnessService localBranch).2 rfl⟩

/-- C8 counterexample: on a concrete `run` function where
`git branch -d feature-x` fails with a "not fully merged" message,
`deleteLocalBranch` does not fail — the automatic force-delete retry
succeeds and the call returns no error, contradicting the claim that a
failed regular delete is surfaced as a command error and never retried. -/
theorem c8_counterexample :
    runCexC8 ["branch", "-d", "feature-x"]
      = Except.error "branch feature-x is not fully merged"
    ∧ defaultDeleteLocalBranch runCexC8 "feature-x" = Except.ok () :=
  ⟨rfl, rfl⟩

/-- C8 (amended): when the regular local delete fails, `deleteLocalBranch`
automatically retries with a force delete; it succeeds when the force delete
succeeds, and fails only when the force delete also fails, returning a
command error that preserves the original regular-delete message. -/
theorem c8_force_delete_retry (run : List String → Except String String)
    (name e : String) (h : run ["branch", "-d", name] = Except.error e) :
    ((∃ out, run ["branch", "-D", name] = Except.ok out) →
      defaultDeleteLocalBranch run name = Except.ok ())
    ∧ (∀ e2, run ["branch", "-D", name] = Except.error e2 →
      defaultDeleteLocalBranch run name
        = Except.error ("failed to delete local branch " ++ name ++ ": " ++ e)) := by
  constructor
  · rintro ⟨out, hD⟩
    unfold defaultDeleteLocalBranch
    rw [h, hD]
  · intro e2 hD
    unfold defaultDeleteLocalBranch
    rw [h, hD]

/-- Witness for the amended C8 at concrete inputs: one `run` function on
which the force delete rescues the failed regular delete, and one on which
both deletes fail and the original message is preserved. -/
theorem c8_force_delete_retry_witness :
    defaultDeleteLocalBranch runCexC8 "feature-x" = Except.ok ()
    ∧ defaultDeleteLocalBranch runFailBothC8 "feature-x"
        = Except.error ("failed to delete local branch " ++ "feature-x" ++ ": "
            ++ "permission denied") :=
  ⟨(c8_force_delete_retry runCexC8 "feature-x"
      "branch feature-x is not fully merged" rfl).1 ⟨"", rfl⟩,
   (c8_force_delete_retry runFailBothC8 "feature-x" "permission denied" rfl).2
      "permission denied" rfl⟩
